import Mathlib

/-!
Shallow embedding of `src/source/utils/instantiators.py` and
`src/source/utils/rich_utils.py` from the lightning-template repository,
together with theorems checking the natural-language specification
against the code.

Configuration data is modelled by `CNode`, an ordered mapping tree in the
style of an OmegaConf `DictConfig`: dictionaries are association lists
(insertion order is the list order), sequences are lists, and scalars are
`none`/bool/int/string.  External collaborators (`hydra.utils.instantiate`,
the logging sink, the Rich console) are modelled by explicit data:
a constructed object is an `Instantiated` wrapper around its config entry,
log calls accumulate in a `LogMsg` list, the interactive prompt becomes a
`String` parameter, and Python exceptions become a `PyError` value.
-/

set_option autoImplicit false

namespace LT

/-- A configuration value: `None`, a scalar, a sequence (`ListConfig`) or a
nested ordered mapping (`DictConfig`, kept as an association list in
insertion order). -/
inductive CNode where
  | vnone : CNode
  | vbool : Bool → CNode
  | vint : Int → CNode
  | vstr : String → CNode
  | vseq : List CNode → CNode
  | vdict : List (String × CNode) → CNode

/-- Python truthiness of a config value: `None`, `False`, `0`, `""` and
empty containers are falsy (for `DictConfig`/`ListConfig`, `bool(x)` goes
through `__len__`). -/
def truthy : CNode → Bool
  | .vnone => false
  | .vbool b => b
  | .vint n => n != 0
  | .vstr s => s != ""
  | .vseq xs => !xs.isEmpty
  | .vdict es => !es.isEmpty

/-- Whether the value is a `DictConfig` (`isinstance(x, DictConfig)`). -/
def CNode.isDict : CNode → Bool
  | .vdict _ => true
  | _ => false

/-- First-match key lookup in an association list (omegaconf dictionaries
have unique keys, so this is plain dictionary lookup). -/
def lookup : List (String × CNode) → String → Option CNode
  | [], _ => none
  | p :: es, k => if p.1 == k then some p.2 else lookup es k

/-- Key membership test on a mapping node (Python `key in cfg`, which for a
`DictConfig` checks top-level keys; `false` on any non-mapping). -/
def CNode.hasKey : CNode → String → Bool
  | .vdict es, k => (lookup es k).isSome
  | _, _ => false

/-- Value of the reserved `_target_` key when it is a string, used only in
the informational log message naming the target type. -/
def targetOf : CNode → String
  | .vdict es =>
    match lookup es "_target_" with
    | some (.vstr s) => s
    | _ => ""
  | _ => ""

/-- An object produced by the external instantiation collaborator
`hydra.utils.instantiate`: it is determined by the config entry it was
constructed from, which is all the repository relies on. -/
structure Instantiated where
  cfg : CNode

/-- Model of `hydra.utils.instantiate(entry)`. -/
def hydraInstantiate (c : CNode) : Instantiated := ⟨c⟩

/-- Python exceptions raised by the two modules. `attributeError k` stands
for the `AttributeError`/`ConfigAttributeError` raised when attribute `k`
is accessed on an object that does not provide it. -/
inductive PyError where
  | typeError : String → PyError
  | valueError : String → PyError
  | attributeError : String → PyError

/-- A message sent to the logging sink. -/
inductive LogMsg where
  | warning : String → LogMsg
  | info : String → LogMsg

/-- Result of an instantiator call: the returned list (or the raised
exception) together with the emitted log messages. -/
structure InstResult where
  result : Except PyError (List Instantiated)
  logs : List LogMsg

/-- The body of the `for _, callback in callbacks_config.items()` loop of
`instantiate_callbacks` (and, with a different message, of
`instantiate_loggers`): entries that are mapping nodes containing
`_target_` are logged and instantiated, all others are skipped. -/
def instLoop (msg : String) (es : List (String × CNode)) :
    List Instantiated × List LogMsg :=
  es.foldl
    (fun acc p =>
      if p.2.isDict && p.2.hasKey "_target_" then
        (acc.1 ++ [hydraInstantiate p.2],
         acc.2 ++ [LogMsg.info ("Instantiating " ++ msg ++ " <" ++ targetOf p.2 ++ ">")])
      else acc)
    ([], [])

/-- Embedding of `instantiate_callbacks` (instantiators.py, lines 13-33):
falsy config warns and returns `[]`; a truthy non-`DictConfig` raises
`TypeError`; otherwise the entries are traversed in insertion order. -/
def instantiate_callbacks (callbacks_config : CNode) : InstResult :=
  if !truthy callbacks_config then
    { result := .ok [], logs := [.warning "No callback configs found! Skipping.."] }
  else
    match callbacks_config with
    | .vdict es => { result := .ok (instLoop "callback" es).1, logs := (instLoop "callback" es).2 }
    | _ => { result := .error (.typeError "Callbacks config must be a DictConfig!"), logs := [] }

/-- Embedding of `instantiate_loggers` (instantiators.py, lines 36-56),
identical to `instantiate_callbacks` up to message wording. -/
def instantiate_loggers (logger_config : CNode) : InstResult :=
  if !truthy logger_config then
    { result := .ok [], logs := [.warning "No logger configs found! Skipping..."] }
  else
    match logger_config with
    | .vdict es => { result := .ok (instLoop "logger" es).1, logs := (instLoop "logger" es).2 }
    | _ => { result := .error (.typeError "Logger config must be a DictConfig!"), logs := [] }

/-- Attribute-style access `x.k` on a Hydra-composed config node.  Such
nodes are in struct mode (the spec: the node is "normally immutable
against schema drift"), so a missing key raises `ConfigAttributeError`;
on a non-mapping value the access raises `AttributeError`. -/
def attrGet (c : CNode) (k : String) : Except PyError CNode :=
  match c with
  | .vdict es =>
    match lookup es k with
    | some v => .ok v
    | none => .error (.attributeError k)
  | _ => .error (.attributeError k)

/-- Sequence of attribute accesses, stopping at the first exception. -/
def attrFold : CNode → List String → Except PyError CNode
  | c, [] => .ok c
  | c, k :: ks =>
    match attrGet c k with
    | .ok v => attrFold v ks
    | .error e => .error e

/-- Chained attribute access `cfg.k1.k2...` starting from a root mapping. -/
def attrChain (cfg : List (String × CNode)) (ks : List String) : Except PyError CNode :=
  attrFold (.vdict cfg) ks

/-- The default `print_order` argument of `print_config_tree`. -/
def default_print_order : List String :=
  ["datamodule", "model", "callbacks", "logger", "trainer", "paths", "extras"]

/-- Result of `print_config_tree`: the display queue, the rendered
branches in display order (each labelled with its field name and carrying
the field value handed to the external serializer), and the warnings
emitted for preferred fields missing from the root. -/
structure PrintResult where
  queue : List String
  branches : List (String × CNode)
  warnings : List LogMsg

/-- Embedding of `print_config_tree` (rich_utils.py, lines 17-74): queue
the preference-list fields present in the root in list order (warning on
the absent ones), then the remaining root fields in insertion order, and
render one branch per queued field. -/
def print_config_tree (config : List (String × CNode)) (print_order : List String) :
    PrintResult :=
  let step1 := print_order.foldl
    (fun acc f =>
      if (lookup config f).isSome then (acc.1 ++ [f], acc.2)
      else (acc.1, acc.2 ++ [LogMsg.warning ("Field " ++ f ++ " not found in config. Skipping " ++ f ++ " config printing...")]))
    (([] : List String), ([] : List LogMsg))
  let queue := config.foldl
    (fun q p => if q.contains p.1 then q else q ++ [p.1]) step1.1
  { queue := queue
    branches := queue.map (fun f => (f, (lookup config f).getD .vnone))
    warnings := step1.2 }

/-- Result of `enforce_tags`: the (possibly mutated) root config, whether
the interactive prompt ran, the emitted log messages, and the exception
that escaped the call, if any.  The config is mutated in place by the
Python code, so it reflects writes that happened before an exception. -/
structure EnforceResult where
  config : List (String × CNode)
  prompted : Bool
  logs : List LogMsg
  error : Option PyError

/-- Key update on an ordered mapping, with omegaconf insertion-order
semantics: an existing key keeps its position, a new key is appended. -/
def setKey (es : List (String × CNode)) (k : String) (v : CNode) :
    List (String × CNode) :=
  if (lookup es k).isSome then
    es.map (fun p => if p.1 == k then (k, v) else p)
  else es ++ [(k, v)]

/-- Model of `rich.prompt.Prompt.ask` with a default: the default is
returned exactly when the entered line is empty. -/
def promptAsk (input : String) (dflt : String) : String :=
  if input == "" then dflt else input

/-- Python `str.split(sep)` for a one-character separator, on the
character list of the string: `""` gives `[""]`, adjacent separators give
empty pieces, and a trailing separator gives a trailing empty piece. -/
def splitChars (sep : Char) : List Char → List (List Char)
  | [] => [[]]
  | c :: cs =>
    match splitChars sep cs with
    | [] => if c == sep then [[], []] else [[c]]
    | h :: t => if c == sep then [] :: h :: t else (c :: h) :: t

/-- Python `str.strip()`: drop leading and trailing whitespace. -/
def pyStrip (s : List Char) : List Char :=
  ((s.dropWhile Char.isWhitespace).reverse.dropWhile Char.isWhitespace).reverse

/-- The tag post-processing of rich_utils.py line 90,
`[t.strip() for t in tags.split(",") if t != ""]`: split on commas, drop
the pieces that are exactly empty, then strip the survivors.  Note the
comprehension filters the raw pieces before stripping them. -/
def splitTags (line : String) : List String :=
  (((splitChars ',' line.toList).filter (fun t => t != [])).map
    (fun t => pyStrip t)).map (fun t => String.mk t)

/-- The trailing `if save_to_file:` block of `enforce_tags` (rich_utils.py,
lines 97-99): it reads `config.paths.hydra_output_dir` and
`config.core.tags` (either read can raise) and writes a file, leaving the
config untouched. -/
def saveBlock (cfg : List (String × CNode)) (prompted : Bool) (logs : List LogMsg)
    (save_to_file : Bool) : EnforceResult :=
  if save_to_file then
    match attrChain cfg ["paths", "hydra_output_dir"] with
    | .error e => { config := cfg, prompted := prompted, logs := logs, error := some e }
    | .ok _ =>
      match attrChain cfg ["core", "tags"] with
      | .error e => { config := cfg, prompted := prompted, logs := logs, error := some e }
      | .ok _ => { config := cfg, prompted := prompted, logs := logs, error := none }
  else { config := cfg, prompted := prompted, logs := logs, error := none }

/-- Truthiness of `DictConfig.get`'s result (`.get` returns `None` on a
missing key, which is falsy). -/
def optTruthy : Option CNode → Bool
  | none => false
  | some v => truthy v

/-- Embedding of `enforce_tags` (rich_utils.py, lines 77-99).  `jobHasId`
models the batch-mode signal `"id" in HydraConfig().cfg.hydra.job`;
`input` is the line entered at the interactive prompt.  The guard reads
`config.get("core").get("tags")` (an `AttributeError` if `core` is
missing, `None`, or not a mapping); when that value is falsy, batch mode
raises `ValueError`, otherwise the prompt result is split into tags and
written to `config.core.tags` under `open_dict`, after which line 95 reads
the top-level attribute `config.tags` for the info log (raising
`ConfigAttributeError` when the root has no `tags` field). -/
def enforce_tags (config : List (String × CNode)) (jobHasId : Bool)
    (input : String) (save_to_file : Bool) : EnforceResult :=
  match lookup config "core" with
  | some (.vdict coreEs) =>
    if optTruthy (lookup coreEs "tags") then
      saveBlock config false [] save_to_file
    else if jobHasId then
      { config := config, prompted := false, logs := [],
        error := some (.valueError "Specify tags before launching a multirun!") }
    else
      let tags := splitTags (promptAsk input "dev")
      let newConfig :=
        setKey config "core" (.vdict (setKey coreEs "tags" (.vseq (tags.map CNode.vstr))))
      let logs := [LogMsg.warning "No tags provided in config. Prompting user to input tags..."]
      match attrGet (.vdict newConfig) "tags" with
      | .error e =>
        { config := newConfig, prompted := true, logs := logs, error := some e }
      | .ok _ =>
        saveBlock newConfig true (logs ++ [LogMsg.info "Tags:"]) save_to_file
  | _ =>
    { config := config, prompted := false, logs := [],
      error := some (.attributeError "get") }

/-! ## Helper lemmas -/

/-- In-place replacement at key `k` puts the new value under `k` exactly
when `k` was present. -/
theorem lookup_mapSet_self (es : List (String × CNode)) (k : String) (v : CNode) :
    lookup (es.map (fun p => if p.1 == k then (k, v) else p)) k =
      if (lookup es k).isSome then some v else none := by
  induction es with
  | nil => simp [lookup]
  | cons p es ih =>
    by_cases hp : (p.1 == k) = true
    · simp [lookup, hp]
    · simp [lookup, hp]
      simpa using ih

/-- In-place replacement at key `k` does not touch other keys. -/
theorem lookup_mapSet_ne (es : List (String × CNode)) (k : String) (v : CNode)
    (k' : String) (h : k' ≠ k) :
    lookup (es.map (fun p => if p.1 == k then (k, v) else p)) k' = lookup es k' := by
  induction es with
  | nil => simp [lookup]
  | cons p es ih =>
    by_cases hp : (p.1 == k) = true
    · have hk : p.1 = k := eq_of_beq hp
      have h1 : (k == k') = false := beq_eq_false_iff_ne.mpr (fun e => h e.symm)
      have h2 : (p.1 == k') = false := by rw [hk]; exact h1
      simp [lookup, hp, h1, h2]
      simpa using ih
    · simp only [List.map_cons, if_neg hp, lookup]
      by_cases hq : (p.1 == k') = true
      · simp [hq]
      · simp [hq]
        simpa using ih

/-- Appending a binding for an absent key makes that key map to it. -/
theorem lookup_append_self (es : List (String × CNode)) (k : String) (v : CNode)
    (h : lookup es k = none) : lookup (es ++ [(k, v)]) k = some v := by
  induction es with
  | nil => simp [lookup]
  | cons p es ih =>
    by_cases hp : (p.1 == k) = true
    · simp [lookup, hp] at h
    · simp only [lookup, hp, if_false, List.cons_append] at h ⊢
      exact ih h

/-- Appending a binding for key `k` does not touch other keys. -/
theorem lookup_append_ne (es : List (String × CNode)) (k : String) (v : CNode)
    (k' : String) (h : k' ≠ k) : lookup (es ++ [(k, v)]) k' = lookup es k' := by
  induction es with
  | nil =>
    have h1 : (k == k') = false := beq_eq_false_iff_ne.mpr (fun e => h e.symm)
    simp [lookup, h1]
  | cons p es ih =>
    by_cases hp : (p.1 == k') = true
    · simp [lookup, hp]
    · simp only [lookup, hp, if_false, List.cons_append]
      exact ih

/-- Updating key `k` makes `k` map to the new value. -/
theorem lookup_setKey_self (es : List (String × CNode)) (k : String) (v : CNode) :
    lookup (setKey es k v) k = some v := by
  unfold setKey
  by_cases h : (lookup es k).isSome
  · simp only [h, if_true]
    simpa [h] using lookup_mapSet_self es k v
  · exact if_neg h ▸ lookup_append_self es k v (Option.not_isSome_iff_eq_none.mp h)

/-- Updating key `k` leaves every other key unchanged. -/
theorem lookup_setKey_ne (es : List (String × CNode)) (k : String) (v : CNode)
    (k' : String) (h : k' ≠ k) : lookup (setKey es k v) k' = lookup es k' := by
  unfold setKey
  by_cases hs : (lookup es k).isSome
  · simpa [hs] using lookup_mapSet_ne es k v k' h
  · simpa [hs] using lookup_append_ne es k v k' h

/-- The instantiator loop is a filter of the qualifying entries followed by
a map, in input order, for any starting accumulator. -/
theorem instLoop_foldl (msg : String) (es : List (String × CNode))
    (acc : List Instantiated × List LogMsg) :
    es.foldl
      (fun acc p =>
        if p.2.isDict && p.2.hasKey "_target_" then
          (acc.1 ++ [hydraInstantiate p.2],
           acc.2 ++ [LogMsg.info ("Instantiating " ++ msg ++ " <" ++ targetOf p.2 ++ ">")])
        else acc)
      acc
    = (acc.1 ++ (es.filter (fun p => p.2.isDict && p.2.hasKey "_target_")).map
          (fun p => hydraInstantiate p.2),
       acc.2 ++ (es.filter (fun p => p.2.isDict && p.2.hasKey "_target_")).map
          (fun p => LogMsg.info ("Instantiating " ++ msg ++ " <" ++ targetOf p.2 ++ ">"))) := by
  induction es generalizing acc with
  | nil => simp
  | cons p es ih =>
    rw [List.foldl_cons, ih]
    by_cases h : (p.2.isDict && p.2.hasKey "_target_") = true
    · simp [h, List.append_assoc]
    · simp [h]

/-- Closed form of `instLoop`. -/
theorem instLoop_eq (msg : String) (es : List (String × CNode)) :
    instLoop msg es
    = ((es.filter (fun p => p.2.isDict && p.2.hasKey "_target_")).map
         (fun p => hydraInstantiate p.2),
       (es.filter (fun p => p.2.isDict && p.2.hasKey "_target_")).map
         (fun p => LogMsg.info ("Instantiating " ++ msg ++ " <" ++ targetOf p.2 ++ ">"))) := by
  unfold instLoop
  rw [instLoop_foldl]
  simp

/-- The first loop of `print_config_tree` keeps the preferred fields
present in the root, in preference order, and warns on the others. -/
theorem printOrder_foldl (config : List (String × CNode)) (po : List String)
    (acc : List String × List LogMsg) :
    po.foldl
      (fun acc f =>
        if (lookup config f).isSome then (acc.1 ++ [f], acc.2)
        else (acc.1, acc.2 ++ [LogMsg.warning ("Field " ++ f ++ " not found in config. Skipping " ++ f ++ " config printing...")]))
      acc
    = (acc.1 ++ po.filter (fun f => (lookup config f).isSome),
       acc.2 ++ (po.filter (fun f => !(lookup config f).isSome)).map
          (fun f => LogMsg.warning ("Field " ++ f ++ " not found in config. Skipping " ++ f ++ " config printing..."))) := by
  induction po generalizing acc with
  | nil => simp
  | cons f po ih =>
    rw [List.foldl_cons, ih]
    cases hl : lookup config f with
    | none => simp [hl, List.append_assoc]
    | some v => simp [hl, List.append_assoc]

/-- The second loop of `print_config_tree` appends, to the queue built so
far, the root fields not already queued, in insertion order (root keys are
distinct, as in any omegaconf mapping). -/
theorem queue_foldl (es : List (String × CNode)) (q : List String)
    (h : (es.map Prod.fst).Nodup) :
    es.foldl (fun q p => if q.contains p.1 then q else q ++ [p.1]) q
      = q ++ (es.map Prod.fst).filter (fun f => !q.contains f) := by
  induction es generalizing q with
  | nil => simp
  | cons p es ih =>
    have h1 : p.1 ∉ es.map Prod.fst := by
      simp only [List.map_cons, List.nodup_cons] at h
      exact h.1
    have h2 : (es.map Prod.fst).Nodup := by
      simp only [List.map_cons, List.nodup_cons] at h
      exact h.2
    by_cases hc : q.contains p.1
    · have hc' : p.1 ∈ q := by simpa [List.contains] using hc
      rw [List.foldl_cons, if_pos hc, ih q h2]
      simp [hc']
    · have hc' : p.1 ∉ q := by simpa [List.contains] using hc
      rw [List.foldl_cons, if_neg hc, ih (q ++ [p.1]) h2]
      have hfc : (es.map Prod.fst).filter (fun f => !(q ++ [p.1]).contains f)
          = (es.map Prod.fst).filter (fun f => !q.contains f) := by
        apply List.filter_congr
        intro f hf
        have hfp : f ≠ p.1 := fun e => h1 (e ▸ hf)
        simp [List.contains, hfp]
      rw [hfc]
      simp [hc']

/-- The save-to-file block returns the config it was given, unchanged, and
preserves the prompted flag and logs; only the error field depends on the
two attribute reads. -/
theorem saveBlock_spec (cfg : List (String × CNode)) (p : Bool) (l : List LogMsg)
    (s : Bool) :
    (saveBlock cfg p l s).config = cfg ∧ (saveBlock cfg p l s).prompted = p
    ∧ (saveBlock cfg p l s).logs = l := by
  unfold saveBlock
  by_cases hs : s = true
  · simp only [if_pos hs]
    cases attrChain cfg ["paths", "hydra_output_dir"] with
    | error e => exact ⟨by simp, by simp, by simp⟩
    | ok v =>
      cases attrChain cfg ["core", "tags"] with
      | error e => exact ⟨by simp, by simp, by simp⟩
      | ok w => exact ⟨by simp, by simp, by simp⟩
  · simp [if_neg hs]

/-- On a mapping config, `instantiate_callbacks` returns, without raising,
exactly the instantiations of the qualifying entries, in order. -/
theorem instantiate_callbacks_dict (es : List (String × CNode)) :
    (instantiate_callbacks (.vdict es)).result
      = .ok ((es.filter (fun p => p.2.isDict && p.2.hasKey "_target_")).map
          (fun p => hydraInstantiate p.2)) := by
  cases es with
  | nil => simp [instantiate_callbacks, truthy]
  | cons q es' => simp [instantiate_callbacks, truthy, instLoop_eq]

/-- On a mapping config, `instantiate_loggers` returns, without raising,
exactly the instantiations of the qualifying entries, in order. -/
theorem instantiate_loggers_dict (es : List (String × CNode)) :
    (instantiate_loggers (.vdict es)).result
      = .ok ((es.filter (fun p => p.2.isDict && p.2.hasKey "_target_")).map
          (fun p => hydraInstantiate p.2)) := by
  cases es with
  | nil => simp [instantiate_loggers, truthy]
  | cons q es' => simp [instantiate_loggers, truthy, instLoop_eq]

/-! ## Claim theorems -/

/-- C3: every input to `instantiate_callbacks` or `instantiate_loggers`
that is present and truthy (non-empty, non-absent) but is not a mapping
node — a scalar or a sequence, say — makes the call raise a `TypeError`. -/
theorem instantiate_non_mapping_type_error (c : CNode)
    (h1 : truthy c = true) (h2 : c.isDict = false) :
    (instantiate_callbacks c).result
        = .error (.typeError "Callbacks config must be a DictConfig!")
    ∧ (instantiate_loggers c).result
        = .error (.typeError "Logger config must be a DictConfig!") := by
  refine ⟨?_, ?_⟩ <;>
    cases c <;>
      simp_all [instantiate_callbacks, instantiate_loggers, CNode.isDict]

/-- Witness for C3 at the scalar `"x"` and the one-element sequence. -/
theorem instantiate_non_mapping_type_error_witness :
    truthy (CNode.vstr "x") = true ∧ (CNode.vstr "x").isDict = false
    ∧ (instantiate_callbacks (.vstr "x")).result
        = .error (.typeError "Callbacks config must be a DictConfig!")
    ∧ (instantiate_loggers (.vseq [.vint 1])).result
        = .error (.typeError "Logger config must be a DictConfig!") :=
  ⟨by decide, by decide,
   (instantiate_non_mapping_type_error (.vstr "x") (by decide) (by decide)).1,
   (instantiate_non_mapping_type_error (.vseq [.vint 1]) (by decide) (by decide)).2⟩

/-- C4: when every entry of the config mapping is itself a mapping carrying
the reserved `_target_` key, both instantiators return the sequence of
objects constructed from the entries, one per entry, in insertion order,
hence of the same length as the number of entries. -/
theorem instantiate_all_target_entries (es : List (String × CNode))
    (h : ∀ p ∈ es, p.2.isDict = true ∧ p.2.hasKey "_target_" = true) :
    (instantiate_callbacks (.vdict es)).result
        = .ok (es.map (fun p => hydraInstantiate p.2))
    ∧ (instantiate_loggers (.vdict es)).result
        = .ok (es.map (fun p => hydraInstantiate p.2))
    ∧ (es.map (fun p => hydraInstantiate p.2)).length = es.length := by
  have hfilter : es.filter (fun p => p.2.isDict && p.2.hasKey "_target_") = es := by
    rw [List.filter_eq_self]
    intro p hp
    have hp' := h p hp
    simp [hp'.1, hp'.2]
  refine ⟨?_, ?_, by simp⟩
  · rw [instantiate_callbacks_dict, hfilter]
  · rw [instantiate_loggers_dict, hfilter]

/-- Witness for C4 on a two-entry mapping. -/
theorem instantiate_all_target_entries_witness :
    (instantiate_callbacks (.vdict
        [("a", .vdict [("_target_", .vstr "pkg.A")]),
         ("b", .vdict [("_target_", .vstr "pkg.B"), ("lr", .vint 3)])])).result
      = .ok [hydraInstantiate (.vdict [("_target_", .vstr "pkg.A")]),
             hydraInstantiate (.vdict [("_target_", .vstr "pkg.B"), ("lr", .vint 3)])] := by
  have h := instantiate_all_target_entries
    [("a", .vdict [("_target_", .vstr "pkg.A")]),
     ("b", .vdict [("_target_", .vstr "pkg.B"), ("lr", .vint 3)])]
    (by
      intro p hp
      simp only [List.mem_cons, List.not_mem_nil, or_false] at hp
      rcases hp with h1 | h1 <;> subst h1 <;> exact ⟨rfl, rfl⟩)
  simpa using h.1

/-- C8: entries of the config mapping that are not mappings, or are
mappings without the reserved `_target_` key, are silently excluded: both
instantiators return, without error, exactly the instantiation of the
filtered qualifying entries, in order. -/
theorem instantiate_skips_non_target_entries (es : List (String × CNode)) :
    (instantiate_callbacks (.vdict es)).result
        = .ok ((es.filter (fun p => p.2.isDict && p.2.hasKey "_target_")).map
            (fun p => hydraInstantiate p.2))
    ∧ (instantiate_loggers (.vdict es)).result
        = .ok ((es.filter (fun p => p.2.isDict && p.2.hasKey "_target_")).map
            (fun p => hydraInstantiate p.2)) := by
  exact ⟨instantiate_callbacks_dict es, instantiate_loggers_dict es⟩

/-- C9: a falsy (empty or absent) config makes both instantiators return
the empty sequence and log a warning; no exception is raised. -/
theorem instantiate_empty_returns_nil (c : CNode) (h : truthy c = false) :
    instantiate_callbacks c
        = { result := .ok [], logs := [.warning "No callback configs found! Skipping.."] }
    ∧ instantiate_loggers c
        = { result := .ok [], logs := [.warning "No logger configs found! Skipping..."] } := by
  unfold instantiate_callbacks instantiate_loggers
  simp [h]

/-- Witness for C9 at the empty mapping. -/
theorem instantiate_empty_returns_nil_witness :
    truthy (CNode.vdict []) = false
    ∧ instantiate_callbacks (.vdict [])
        = { result := .ok [], logs := [.warning "No callback configs found! Skipping.."] }
    ∧ instantiate_loggers (.vdict [])
        = { result := .ok [], logs := [.warning "No logger configs found! Skipping..."] } :=
  ⟨rfl, (instantiate_empty_returns_nil (.vdict []) rfl).1,
   (instantiate_empty_returns_nil (.vdict []) rfl).2⟩

/-- C10: `instantiate_callbacks` and `instantiate_loggers` compute the
same function: on every input they either both raise (only the message
wording differs) or both return the same sequence, built from the same
entries in the same order. -/
theorem instantiate_callbacks_loggers_equiv (c : CNode) :
    (instantiate_callbacks c).result.toOption
      = (instantiate_loggers c).result.toOption := by
  by_cases h : truthy c = true
  · cases c with
    | vdict es => simp [instantiate_callbacks_dict, instantiate_loggers_dict]
    | vnone => simp [truthy] at h
    | vbool b => simp [instantiate_callbacks, instantiate_loggers, h, Except.toOption]
    | vint n => simp [instantiate_callbacks, instantiate_loggers, h, Except.toOption]
    | vstr t => simp [instantiate_callbacks, instantiate_loggers, h, Except.toOption]
    | vseq xs => simp [instantiate_callbacks, instantiate_loggers, h, Except.toOption]
  · simp [instantiate_callbacks, instantiate_loggers, h]

/-- C5: `print_config_tree` renders the top-level fields in this order:
first every preference-list name present in the root, in list order, then
every remaining root field in the root insertion order (preference names
absent from the root are warned about and omitted from the queue). -/
theorem print_config_tree_order (config : List (String × CNode)) (po : List String)
    (h : (config.map Prod.fst).Nodup) :
    (print_config_tree config po).queue
        = po.filter (fun f => (lookup config f).isSome)
          ++ (config.map Prod.fst).filter
              (fun f => !(po.filter (fun g => (lookup config g).isSome)).contains f)
    ∧ (print_config_tree config po).branches.map Prod.fst
        = (print_config_tree config po).queue
    ∧ (print_config_tree config po).warnings
        = (po.filter (fun f => !(lookup config f).isSome)).map
            (fun f => LogMsg.warning ("Field " ++ f ++ " not found in config. Skipping " ++ f ++ " config printing...")) := by
  have hq : (print_config_tree config po).queue
      = po.filter (fun f => (lookup config f).isSome)
        ++ (config.map Prod.fst).filter
            (fun f => !(po.filter (fun g => (lookup config g).isSome)).contains f) := by
    unfold print_config_tree
    simp only [printOrder_foldl, List.nil_append]
    exact queue_foldl config _ h
  refine ⟨hq, ?_, ?_⟩
  · show ((print_config_tree config po).queue.map
        (fun f => (f, (lookup config f).getD .vnone))).map Prod.fst
      = (print_config_tree config po).queue
    rw [List.map_map]
    exact List.map_id _
  · unfold print_config_tree
    simp only [printOrder_foldl, List.nil_append]

/-- Witness for C5: the worked example from the spec, preference list
`["model", "callbacks"]` over root fields `callbacks, model, extra`,
renders in the order `model, callbacks, extra`. -/
theorem print_config_tree_order_witness :
    (print_config_tree
        [("callbacks", .vint 1), ("model", .vint 2), ("extra", .vint 3)]
        ["model", "callbacks"]).queue
      = ["model", "callbacks", "extra"] := by
  have h := print_config_tree_order
    [("callbacks", .vint 1), ("model", .vint 2), ("extra", .vint 3)]
    ["model", "callbacks"] (by decide)
  rw [h.1]
  rfl

/-- C6: when `core.tags` is empty or absent and the batch-mode signal (a
job id in the launch context) is present, `enforce_tags` raises the
configuration `ValueError`, runs no prompt, and leaves the config
unchanged (the save block is not reached). -/
theorem enforce_tags_batch_mode_error (config coreEs : List (String × CNode))
    (input : String) (save : Bool)
    (hcore : lookup config "core" = some (.vdict coreEs))
    (htags : optTruthy (lookup coreEs "tags") = false) :
    enforce_tags config true input save
      = { config := config, prompted := false, logs := [],
          error := some (.valueError "Specify tags before launching a multirun!") } := by
  unfold enforce_tags
  rw [hcore]
  simp [htags]

/-- Witness for C6 at `core.tags = []`. -/
theorem enforce_tags_batch_mode_error_witness :
    lookup [("core", CNode.vdict [("tags", CNode.vseq [])])] "core"
        = some (.vdict [("tags", CNode.vseq [])])
    ∧ optTruthy (lookup [("tags", CNode.vseq [])] "tags") = false
    ∧ enforce_tags [("core", CNode.vdict [("tags", CNode.vseq [])])] true "a" false
        = { config := [("core", CNode.vdict [("tags", CNode.vseq [])])],
            prompted := false, logs := [],
            error := some (.valueError "Specify tags before launching a multirun!") } :=
  ⟨rfl, rfl, enforce_tags_batch_mode_error _ _ "a" false rfl rfl⟩

/-- C1: the claim that the interactive path always succeeds is wrong on
the code.  On the config shape the spec prescribes (tags under `core`, no
top-level `tags` field), the prompt runs and the tags are written, but
line 95 then reads the top-level attribute `config.tags` in the info-log
f-string — a struct-mode access to a missing key — so the call raises.
This theorem evaluates the code at such an input. -/
theorem enforce_tags_interactive_raises :
    (enforce_tags [("core", .vdict [("tags", .vseq [])])] false "a" false).error
        = some (.attributeError "tags")
    ∧ (enforce_tags [("core", .vdict [("tags", .vseq [])])] false "a" false).prompted
        = true :=
  ⟨rfl, rfl⟩

/-- C2 counterexample: the comprehension on line 90 filters the raw pieces
before stripping them, so the whitespace-only piece of `"a, ,b"` survives
the filter and is stripped to the empty string: the final `core.tags` is
`["a", "", "b"]`, which contains an empty string, contrary to the claim. -/
theorem enforce_tags_empty_string_tag :
    (enforce_tags [("core", .vdict [("tags", .vseq [])])] false "a, ,b" false).config
      = [("core", .vdict [("tags", .vseq [.vstr "a", .vstr "", .vstr "b"])])] := rfl

/-- C2 (amended): in the interactive case the entered line (default "dev"
when empty) is split on commas, pieces equal to the empty string are
dropped, the surviving pieces are trimmed of whitespace (so whitespace-only
pieces become empty strings in the result), and the resulting sequence is
written to `core.tags` (the prompt did run; the write persists in the
mutated config even though the call then raises at the final info log). -/
theorem enforce_tags_written_tags (config coreEs : List (String × CNode))
    (input : String) (save : Bool)
    (hcore : lookup config "core" = some (.vdict coreEs))
    (htags : optTruthy (lookup coreEs "tags") = false) :
    attrChain (enforce_tags config false input save).config ["core", "tags"]
        = .ok (.vseq (((splitChars ',' (if input == "" then "dev" else input).toList).filter
            (fun t => t != [])).map (fun t => CNode.vstr (String.mk (pyStrip t)))))
    ∧ (enforce_tags config false input save).prompted = true := by
  have hstep : (enforce_tags config false input save).config
      = setKey config "core" (.vdict (setKey coreEs "tags"
          (.vseq ((splitTags (promptAsk input "dev")).map CNode.vstr))))
      ∧ (enforce_tags config false input save).prompted = true := by
    unfold enforce_tags
    rw [hcore]
    simp only [htags, Bool.false_eq_true, if_false]
    refine ⟨?_, ?_⟩ <;> split
    · rfl
    · exact (saveBlock_spec _ _ _ _).1
    · rfl
    · exact (saveBlock_spec _ _ _ _).2.1
  refine ⟨?_, hstep.2⟩
  rw [hstep.1]
  have h1 : attrGet (.vdict (setKey config "core" (.vdict (setKey coreEs "tags"
        (.vseq ((splitTags (promptAsk input "dev")).map CNode.vstr)))))) "core"
      = .ok (.vdict (setKey coreEs "tags"
        (.vseq ((splitTags (promptAsk input "dev")).map CNode.vstr)))) := by
    simp only [attrGet, lookup_setKey_self]
  have h2 : attrGet (.vdict (setKey coreEs "tags"
        (.vseq ((splitTags (promptAsk input "dev")).map CNode.vstr)))) "tags"
      = .ok (.vseq ((splitTags (promptAsk input "dev")).map CNode.vstr)) := by
    simp only [attrGet, lookup_setKey_self]
  unfold attrChain
  simp only [attrFold, h1, h2]
  simp [splitTags, promptAsk, List.map_map, Function.comp]

/-- Witness for C2: the spec example input `"a, b ,,c"` yields final tags
`["a", "b", "c"]`. -/
theorem enforce_tags_written_tags_witness :
    attrChain (enforce_tags [("core", .vdict [("tags", .vseq [])])] false
        "a, b ,,c" false).config ["core", "tags"]
      = .ok (.vseq [.vstr "a", .vstr "b", .vstr "c"]) := by
  have h := enforce_tags_written_tags [("core", .vdict [("tags", .vseq [])])]
    [("tags", .vseq [])] "a, b ,,c" false rfl rfl
  rw [h.1]
  rfl

/-- C7: when `core.tags` is already truthy (non-empty), `enforce_tags`
runs no prompt and returns the config unchanged; and in every case the
only field the call can change is `core.tags`: every top-level key other
than `core` is untouched, and inside `core` every key other than `tags`
is untouched. -/
theorem enforce_tags_frame (config : List (String × CNode)) (jobHasId : Bool)
    (input : String) (save : Bool) :
    (∀ coreEs, lookup config "core" = some (.vdict coreEs) →
        optTruthy (lookup coreEs "tags") = true →
        (enforce_tags config jobHasId input save).prompted = false
        ∧ (enforce_tags config jobHasId input save).config = config)
    ∧ (∀ k, k ≠ "core" →
        lookup (enforce_tags config jobHasId input save).config k = lookup config k)
    ∧ (∀ coreEs newCoreEs, lookup config "core" = some (.vdict coreEs) →
        lookup (enforce_tags config jobHasId input save).config "core"
          = some (.vdict newCoreEs) →
        ∀ k, k ≠ "tags" → lookup newCoreEs k = lookup coreEs k) := by
  cases hcore : lookup config "core" with
  | none =>
    have hres : enforce_tags config jobHasId input save
        = { config := config, prompted := false, logs := [],
            error := some (.attributeError "get") } := by
      unfold enforce_tags
      rw [hcore]
    refine ⟨?_, ?_, ?_⟩
    · intro coreEs hc
      simp at hc
    · intro k hk
      rw [hres]
    · intro coreEs newCoreEs hc
      simp at hc
  | some v =>
    cases v with
    | vdict coreEs0 =>
      by_cases ht : optTruthy (lookup coreEs0 "tags") = true
      · have hres : enforce_tags config jobHasId input save
            = saveBlock config false [] save := by
          unfold enforce_tags
          rw [hcore]
          simp [ht]
        have hsb := saveBlock_spec config false [] save
        refine ⟨?_, ?_, ?_⟩
        · intro coreEs hc htt
          rw [hres]
          exact ⟨hsb.2.1, hsb.1⟩
        · intro k hk
          rw [hres, hsb.1]
        · intro coreEs newCoreEs hc hnc k hk
          have hx2 : coreEs0 = coreEs := by
            injection hc with h1
            injection h1 with h2
          rw [hres, hsb.1] at hnc
          have hy := hcore.symm.trans hnc
          have hy2 : coreEs0 = newCoreEs := by
            injection hy with h1
            injection h1 with h2
          rw [← hy2, ← hx2]
      · by_cases hj : jobHasId = true
        · have hres : enforce_tags config jobHasId input save
              = { config := config, prompted := false, logs := [],
                  error := some (.valueError "Specify tags before launching a multirun!") } := by
            unfold enforce_tags
            rw [hcore]
            simp [ht, hj]
          refine ⟨?_, ?_, ?_⟩
          · intro coreEs hc htt
            have hx2 : coreEs0 = coreEs := by
              injection hc with h1
              injection h1 with h2
            rw [← hx2] at htt
            exact absurd htt ht
          · intro k hk
            rw [hres]
          · intro coreEs newCoreEs hc hnc k hk
            have hx2 : coreEs0 = coreEs := by
              injection hc with h1
              injection h1 with h2
            rw [hres] at hnc
            have hy := hcore.symm.trans hnc
            have hy2 : coreEs0 = newCoreEs := by
              injection hy with h1
              injection h1 with h2
            rw [← hy2, ← hx2]
        · have hres : (enforce_tags config jobHasId input save).config
              = setKey config "core" (.vdict (setKey coreEs0 "tags"
                  (.vseq ((splitTags (promptAsk input "dev")).map CNode.vstr)))) := by
            unfold enforce_tags
            rw [hcore]
            simp only [ht, Bool.false_eq_true, if_false, hj]
            split
            · rfl
            · exact (saveBlock_spec _ _ _ _).1
          refine ⟨?_, ?_, ?_⟩
          · intro coreEs hc htt
            have hx2 : coreEs0 = coreEs := by
              injection hc with h1
              injection h1 with h2
            rw [← hx2] at htt
            exact absurd htt ht
          · intro k hk
            rw [hres]
            exact lookup_setKey_ne config "core" _ k hk
          · intro coreEs newCoreEs hc hnc k hk
            have hx2 : coreEs0 = coreEs := by
              injection hc with h1
              injection h1 with h2
            rw [hres, lookup_setKey_self] at hnc
            have hz : setKey coreEs0 "tags"
                (.vseq ((splitTags (promptAsk input "dev")).map CNode.vstr)) = newCoreEs := by
              injection hnc with h1
              injection h1 with h2
            rw [← hz, ← hx2]
            exact lookup_setKey_ne coreEs0 "tags" _ k hk
    | vnone =>
      refine ⟨?_, ?_, ?_⟩
      · intro coreEs hc
        simp at hc
      · intro k hk
        unfold enforce_tags
        rw [hcore]
      · intro coreEs newCoreEs hc
        simp at hc
    | vbool b =>
      refine ⟨?_, ?_, ?_⟩
      · intro coreEs hc
        simp at hc
      · intro k hk
        unfold enforce_tags
        rw [hcore]
      · intro coreEs newCoreEs hc
        simp at hc
    | vint n =>
      refine ⟨?_, ?_, ?_⟩
      · intro coreEs hc
        simp at hc
      · intro k hk
        unfold enforce_tags
        rw [hcore]
      · intro coreEs newCoreEs hc
        simp at hc
    | vstr t =>
      refine ⟨?_, ?_, ?_⟩
      · intro coreEs hc
        simp at hc
      · intro k hk
        unfold enforce_tags
        rw [hcore]
      · intro coreEs newCoreEs hc
        simp at hc
    | vseq xs =>
      refine ⟨?_, ?_, ?_⟩
      · intro coreEs hc
        simp at hc
      · intro k hk
        unfold enforce_tags
        rw [hcore]
      · intro coreEs newCoreEs hc
        simp at hc

/-- Witness for C7: with `core.tags = ["existing"]` no prompt occurs and
the whole config, the other top-level field `model` included, is
unchanged. -/
theorem enforce_tags_frame_witness :
    (enforce_tags [("core", .vdict [("tags", .vseq [.vstr "existing"])]),
        ("model", .vint 7)] false "a" false).prompted = false
    ∧ (enforce_tags [("core", .vdict [("tags", .vseq [.vstr "existing"])]),
        ("model", .vint 7)] false "a" false).config
      = [("core", .vdict [("tags", .vseq [.vstr "existing"])]), ("model", .vint 7)]
    ∧ lookup (enforce_tags [("core", .vdict [("tags", .vseq [.vstr "existing"])]),
        ("model", .vint 7)] false "a" false).config "model" = some (.vint 7) := by
  have h := enforce_tags_frame
    [("core", .vdict [("tags", .vseq [.vstr "existing"])]), ("model", .vint 7)]
    false "a" false
  have h1 := h.1 [("tags", .vseq [.vstr "existing"])] rfl rfl
  have h2 := h.2.1 "model" (by decide)
  refine ⟨h1.1, h1.2, ?_⟩
  rw [h2]
  rfl

end LT
